import Mathlib

/-
Verification of the mkgo build-orchestration core against its specification.
The definitions below are a shallow embedding of the TypeScript sources:
  - BuildCache (getCacheKey, calculateSourceHash, restoreFromCache,
    saveToCache, cleanCache)
  - GoBuilder (build, buildTargetsParallel, buildTargetWithCache,
    executeGoBuild, createBuildResult)
  - CLI.determineTargets / CLI.generateOutputName / CLI.createBuildConfig
External effects (the md5 hash, the file-system enumeration, the toolchain
process, cache-file existence) are passed in as explicit parameters, so every
definition is a pure, executable function of its inputs.
-/

namespace Mkgo

/-- BuildTarget from types.ts; field order matches the object literal built in
CLI.determineTargets (`\x7b os, arch, output, platform \x7d`), which is also the
JSON.stringify serialization order. -/
structure BuildTarget where
  os : String
  arch : String
  output : String
  platform : String
deriving DecidableEq, Repr

/-- BuildConfig from types.ts; field order matches the object literal built in
CLI.createBuildConfig, which is the order JSON.stringify serializes it in.
Numeric fields are modelled as Nat (the CLI produces them with parseInt). -/
structure BuildConfig where
  targets : List BuildTarget
  ldflags : String
  tags : List String
  cgo : Bool
  race : Bool
  compress : Bool
  version : String
  buildVersion : String
  checksum : Bool
  clean : Bool
  debug : Bool
  verbose : Bool
  timestamp : String
  gitHash : String
  randomHash : String
  outputDir : String
  binaryName : String
  static : Bool
  strip : Bool
  timeout : Nat
  parallel : Nat
  skipTests : Bool
  skipVerification : Bool
  noCache : Bool
deriving DecidableEq, Repr

/-- BuildResult from types.ts. -/
structure BuildResult where
  success : Bool
  binaries : List String
  checksums : List String
  failed : List String
  duration : Nat
deriving DecidableEq, Repr

/- ## JSON serialization (JSON.stringify on the config object)

BuildCache.getCacheKey hashes `JSON.stringify(config)`.  JSON.stringify
serializes object fields in insertion order, which for the config object is
the declaration order of CLI.createBuildConfig, mirrored by the structures
above. String escaping is irrelevant for the inputs considered here. -/

/-- JSON rendering of a string (escaping omitted; inputs contain no quotes). -/
def jsonString (s : String) : String := "\"" ++ s ++ "\""

/-- JSON rendering of a boolean. -/
def jsonBool (b : Bool) : String := if b then "true" else "false"

/-- JSON rendering of a string array. -/
def jsonStringList (l : List String) : String :=
  "[" ++ String.intercalate "," (l.map jsonString) ++ "]"

/-- JSON rendering of one BuildTarget, fields in insertion order. -/
def jsonTarget (t : BuildTarget) : String :=
  "\x7b\"os\":" ++ jsonString t.os ++
  ",\"arch\":" ++ jsonString t.arch ++
  ",\"output\":" ++ jsonString t.output ++
  ",\"platform\":" ++ jsonString t.platform ++ "\x7d"

/-- JSON rendering of the targets array. -/
def jsonTargets (l : List BuildTarget) : String :=
  "[" ++ String.intercalate "," (l.map jsonTarget) ++ "]"

/-- `JSON.stringify(config)` exactly as fed to the md5 hash in
BuildCache.getCacheKey: every field of the config is serialized, in insertion
order — including `targets`, `timestamp`, `gitHash` and `randomHash`. -/
def stringifyConfig (c : BuildConfig) : String :=
  "\x7b\"targets\":" ++ jsonTargets c.targets ++
  ",\"ldflags\":" ++ jsonString c.ldflags ++
  ",\"tags\":" ++ jsonStringList c.tags ++
  ",\"cgo\":" ++ jsonBool c.cgo ++
  ",\"race\":" ++ jsonBool c.race ++
  ",\"compress\":" ++ jsonBool c.compress ++
  ",\"version\":" ++ jsonString c.version ++
  ",\"buildVersion\":" ++ jsonString c.buildVersion ++
  ",\"checksum\":" ++ jsonBool c.checksum ++
  ",\"clean\":" ++ jsonBool c.clean ++
  ",\"debug\":" ++ jsonBool c.debug ++
  ",\"verbose\":" ++ jsonBool c.verbose ++
  ",\"timestamp\":" ++ jsonString c.timestamp ++
  ",\"gitHash\":" ++ jsonString c.gitHash ++
  ",\"randomHash\":" ++ jsonString c.randomHash ++
  ",\"outputDir\":" ++ jsonString c.outputDir ++
  ",\"binaryName\":" ++ jsonString c.binaryName ++
  ",\"static\":" ++ jsonBool c.static ++
  ",\"strip\":" ++ jsonBool c.strip ++
  ",\"timeout\":" ++ toString c.timeout ++
  ",\"parallel\":" ++ toString c.parallel ++
  ",\"skipTests\":" ++ jsonBool c.skipTests ++
  ",\"skipVerification\":" ++ jsonBool c.skipVerification ++
  ",\"noCache\":" ++ jsonBool c.noCache ++ "\x7d"

/- ## BuildCache.calculateSourceHash

The source enumerates go files with `find . -name *.go -type f` (no sorting),
splits the stdout into a file list, and for each file that exists feeds its
byte content into one incremental md5; the digest is truncated to 12 hex
characters.  Any error in the whole block yields the sentinel "unknown".
The enumeration is modelled as `Except Unit (List (String × Option (List Nat)))`:
an error, or the file list in find order, each path paired with its byte
content when `fs.pathExists` holds and `none` otherwise.  Incremental hashing
`update c1; update c2; digest` equals hashing the concatenation, so the md5 is
modelled as one function on the concatenated bytes. -/

/-- The byte stream fed to the md5 hash: contents of the existing files
concatenated in enumeration order (BuildCache.calculateSourceHash loop). -/
def concatContents (files : List (String × Option (List Nat))) : List Nat :=
  files.foldl (fun acc f => match f.2 with | some c => acc ++ c | none => acc) []

/-- BuildCache.calculateSourceHash: "unknown" on enumeration failure, else the
md5 of the concatenated contents truncated to 12 characters. -/
def calculateSourceHash (md5bytes : List Nat → String)
    (enumeration : Except Unit (List (String × Option (List Nat)))) : String :=
  match enumeration with
  | .error _ => "unknown"
  | .ok files => (md5bytes (concatContents files)).take 12

/-- BuildCache.getCacheKey: `platform + "-" + sourceHash + "-" + configHash`
where sourceHash comes from calculateSourceHash and configHash is the md5 of
`JSON.stringify(config)` (the whole config, nothing excluded). -/
def getCacheKey (md5str : String → String) (md5bytes : List Nat → String)
    (enumeration : Except Unit (List (String × Option (List Nat))))
    (target : BuildTarget) (config : BuildConfig) : String :=
  let sourceHash := calculateSourceHash md5bytes enumeration
  let configHash := md5str (stringifyConfig config)
  target.platform ++ "-" ++ sourceHash ++ "-" ++ configHash

/- ## GoBuilder: scheduler state and per-target jobs

GoBuilder keeps three mutable arrays (builtBinaries, checksumFiles,
failedBuilds), modelled as an explicit state record.  Each per-target job
interacts with the environment at three points, captured by a `JobEnv` oracle:
whether restoreFromCache succeeds (cache-file exists and the copy works),
whether executeGoBuild succeeds (go toolchain exit 0 within timeout, chmod ok),
and whether saveToCache succeeds.  The cache-store operations a run performs
are recorded as a trace. -/

/-- The mutable per-invocation state of GoBuilder. -/
structure BuilderState where
  builtBinaries : List String
  checksumFiles : List String
  failedBuilds : List String
deriving DecidableEq, Repr

/-- Operations against the cache store directory. `purge` is
BuildCache.cleanCache removing the whole store. -/
inductive CacheOp where
  | lookup (key : String)
  | store (key : String)
  | purge
deriving DecidableEq, Repr

/-- Environment outcome of one target's job: result of the cache lookup, of
the toolchain invocation (true = exit 0 in time) and of the cache write. -/
structure JobEnv where
  cacheHit : Bool
  buildOk : Bool
  saveOk : Bool
deriving DecidableEq, Repr

/-- GoBuilder.buildTargetWithCache for one target: compute the cache key,
try restoreFromCache (hit: record the output and stop), otherwise run
executeGoBuild and saveToCache; any thrown error is caught and the target's
platform label appended to failedBuilds.  Returns the updated state and the
trace of cache operations. -/
def buildTargetWithCache (md5str : String → String) (md5bytes : List Nat → String)
    (enumeration : Except Unit (List (String × Option (List Nat))))
    (env : BuildTarget → JobEnv) (config : BuildConfig)
    (st : BuilderState) (target : BuildTarget) : BuilderState × List CacheOp :=
  let k := getCacheKey md5str md5bytes enumeration target config
  if (env target).cacheHit then
    ({ st with builtBinaries := st.builtBinaries ++ [target.output] }, [CacheOp.lookup k])
  else if (env target).buildOk then
    if (env target).saveOk then
      ({ st with builtBinaries := st.builtBinaries ++ [target.output] },
       [CacheOp.lookup k, CacheOp.store k])
    else
      ({ st with failedBuilds := st.failedBuilds ++ [target.platform] },
       [CacheOp.lookup k, CacheOp.store k])
  else
    ({ st with failedBuilds := st.failedBuilds ++ [target.platform] }, [CacheOp.lookup k])

/-- Whether a target's job ends in a success terminal state (restored from
cache, or built and persisted); mirrors the control flow of
buildTargetWithCache. -/
def jobSucceeds (env : BuildTarget → JobEnv) (t : BuildTarget) : Bool :=
  (env t).cacheHit || ((env t).buildOk && (env t).saveOk)

/-- One batch: Promise.allSettled over the batch's jobs.  Every job runs to a
terminal state; the shared arrays receive the results.  The fold processes the
jobs in batch order (one admissible interleaving of the concurrent pushes). -/
def runTargets (md5str : String → String) (md5bytes : List Nat → String)
    (enumeration : Except Unit (List (String × Option (List Nat))))
    (env : BuildTarget → JobEnv) (config : BuildConfig) :
    List BuildTarget → BuilderState → BuilderState × List CacheOp
  | [], st => (st, [])
  | t :: ts, st =>
    let r := buildTargetWithCache md5str md5bytes enumeration env config st t
    let rest := runTargets md5str md5bytes enumeration env config ts r.1
    (rest.1, r.2 ++ rest.2)

/-- The batch-splitting loop of GoBuilder.buildTargetsParallel:
`for (i = 0; i < targets.length; i += limit) push(targets.slice(i, i+limit))`.
Fuel-indexed so it is total; with `1 ≤ limit` a fuel of `l.length` is enough
(for `limit = 0` the source loop does not terminate, which is outside every
claim's hypotheses). -/
def chunkAux (limit : Nat) : Nat → List BuildTarget → List (List BuildTarget)
  | 0, _ => []
  | _, [] => []
  | fuel + 1, l => l.take limit :: chunkAux limit fuel (l.drop limit)

/-- The batch list of GoBuilder.buildTargetsParallel. -/
def chunkList (limit : Nat) (l : List BuildTarget) : List (List BuildTarget) :=
  chunkAux limit l.length l

/-- The batch size of GoBuilder.buildTargetsParallel:
`Math.min(config.parallel, os.cpus().length)`. -/
def parallelLimit (config : BuildConfig) (cpus : Nat) : Nat :=
  Nat.min config.parallel cpus

/-- The batches GoBuilder.buildTargetsParallel schedules. -/
def mkBatches (config : BuildConfig) (cpus : Nat) : List (List BuildTarget) :=
  chunkList (parallelLimit config cpus) config.targets

/-- The `for (const batch of batches) await Promise.allSettled(...)` loop:
batches strictly in sequence, each batch run to completion before the next. -/
def runBatches (md5str : String → String) (md5bytes : List Nat → String)
    (enumeration : Except Unit (List (String × Option (List Nat))))
    (env : BuildTarget → JobEnv) (config : BuildConfig) :
    List (List BuildTarget) → BuilderState → BuilderState × List CacheOp
  | [], st => (st, [])
  | b :: bs, st =>
    let r := runTargets md5str md5bytes enumeration env config b st
    let rest := runBatches md5str md5bytes enumeration env config bs r.1
    (rest.1, r.2 ++ rest.2)

/-- GoBuilder.buildTargetsParallel. -/
def buildTargetsParallel (md5str : String → String) (md5bytes : List Nat → String)
    (enumeration : Except Unit (List (String × Option (List Nat))))
    (env : BuildTarget → JobEnv) (cpus : Nat) (config : BuildConfig)
    (st : BuilderState) : BuilderState × List CacheOp :=
  runBatches md5str md5bytes enumeration env config (mkBatches config cpus) st

/-- GoBuilder.createBuildResult: success is `failedBuilds.length === 0`. -/
def createBuildResult (st : BuilderState) (duration : Nat) : BuildResult :=
  { success := st.failedBuilds.length == 0
    binaries := st.builtBinaries
    checksums := st.checksumFiles
    failed := st.failedBuilds
    duration := duration }

/-- Environment facts GoBuilder.build consults besides the per-job oracles. -/
structure BuildEnvironment where
  goProject : Bool
  cacheDirExists : Bool
  cpus : Nat
  jobEnv : BuildTarget → JobEnv

/-- GoBuilder.build: validate the go project, optionally clean (removing the
output dir and — via BuildCache.cleanCache — the entire cache store when it
exists), run all batches, generate checksums for the built binaries when
requested, and aggregate the result.  `writeChecksums` stands for
ChecksumUtil.writeChecksumFiles (not part of the cache trace). -/
def build (md5str : String → String) (md5bytes : List Nat → String)
    (enumeration : Except Unit (List (String × Option (List Nat))))
    (benv : BuildEnvironment) (config : BuildConfig) (duration : Nat)
    (writeChecksums : List String → List String) :
    Except String (BuildResult × List CacheOp) :=
  if benv.goProject then
    let cleanOps : List CacheOp :=
      if config.clean && benv.cacheDirExists then [CacheOp.purge] else []
    let r := buildTargetsParallel md5str md5bytes enumeration benv.jobEnv benv.cpus config
      ⟨[], [], []⟩
    let st :=
      if config.checksum && !r.1.builtBinaries.isEmpty then
        { r.1 with checksumFiles := writeChecksums r.1.builtBinaries }
      else r.1
    Except.ok (createBuildResult st duration, cleanOps ++ r.2)
  else
    Except.error "Not a Go project (go.mod not found)"

/-- The trace of cache-store operations one invocation of GoBuilder.build
performs (empty when build aborts before touching the cache). -/
def buildTrace (md5str : String → String) (md5bytes : List Nat → String)
    (enumeration : Except Unit (List (String × Option (List Nat))))
    (benv : BuildEnvironment) (config : BuildConfig) (duration : Nat)
    (writeChecksums : List String → List String) : List CacheOp :=
  match build md5str md5bytes enumeration benv config duration writeChecksums with
  | .ok r => r.2
  | .error _ => []

/- ## CLI.determineTargets and output naming -/

/-- Host facts CLI.determineTargets reads: process.platform and process.arch. -/
structure HostInfo where
  platform : String
  arch : String

/-- The NODE_TO_GO_ARCH lookup with its `|| arch` fallback. -/
def nodeToGoArch (a : String) : String :=
  if a = "x64" then "amd64"
  else if a = "ia32" then "386"
  else if a = "arm64" then "arm64"
  else if a = "arm" then "arm"
  else a

/-- The CLI options determineTargets and generateOutputName consult.  `none`
models an absent commander option; variadic options are lists. -/
structure TargetOptions where
  all : Bool
  target : Option (List String)
  osList : Option (List String)
  archList : Option (List String)
  version : Option String
  output : Option String
  name : Option String

/-- JavaScript `x || d` on an optional string: the default applies when the
option is absent or the empty string. -/
def orDefault (s : Option String) (d : String) : String :=
  match s with
  | some v => if v = "" then d else v
  | none => d

/-- The platform-string list determineTargets derives from the directives
(the if/else-if cascade: all flag, explicit target list, os × arch product,
os list with host arch, arch list with host os, host default). -/
def choosePlatforms (supported : List String) (host : HostInfo)
    (o : TargetOptions) : List String :=
  if o.all then supported
  else if (o.target.getD []).length > 0 then o.target.getD []
  else if o.osList.isSome && o.archList.isSome then
    ((o.osList.getD []).map (fun osName =>
      (o.archList.getD []).map (fun a => osName ++ "/" ++ nodeToGoArch a))).flatten
  else if o.osList.isSome then
    (o.osList.getD []).map (fun osName => osName ++ "/" ++ nodeToGoArch host.arch)
  else if o.archList.isSome then
    (o.archList.getD []).map (fun a => host.platform ++ "/" ++ nodeToGoArch a)
  else [host.platform ++ "/" ++ nodeToGoArch host.arch]

/-- JavaScript `s.split("/")`: the list of chunks between the slashes, empty
chunks included (`"a/" → ["a",""]`, `"" → [""]`). -/
def splitSlash (s : String) : List String :=
  (s.toList.foldr
    (fun c acc =>
      if c = '/' then [] :: acc
      else match acc with
        | h :: t => (c :: h) :: t
        | [] => [[c]])
    [[]]).map (fun l => String.mk l)

/-- `const [os, arch] = platform.split("/")` followed by
`if (!os || !arch) throw`: take the first two slash-separated segments, both
nonempty; extra segments are silently dropped. -/
def parsePlatform (p : String) : Option (String × String) :=
  match splitSlash p with
  | osName :: arch :: _ =>
    if osName = "" ∨ arch = "" then none else some (osName, arch)
  | _ => none

/-- CLI.generateOutputName:
`outputDir/binaryName-version-os-arch-dateStamp[.exe]`. -/
def generateOutputName (osName arch version outputDir binaryName dateStamp : String) :
    String :=
  let ext := if osName = "windows" then ".exe" else ""
  outputDir ++ "/" ++ binaryName ++ "-" ++ version ++ "-" ++ osName ++ "-" ++ arch ++
    "-" ++ dateStamp ++ ext

/-- The body of the `platforms.map` callback in CLI.determineTargets: parse
one platform string, throw on a missing/empty segment, else build the
BuildTarget record (os, arch, output, platform). -/
def resolveOne (o : TargetOptions) (dateStamp : String) (p : String) :
    Except String BuildTarget :=
  match parsePlatform p with
  | none => Except.error ("Invalid platform format: " ++ p)
  | some pair =>
    Except.ok
      { os := pair.1
        arch := pair.2
        output := generateOutputName pair.1 pair.2 (orDefault o.version "1.0.0")
          (orDefault o.output "dist") (orDefault o.name "app") dateStamp
        platform := p }

/-- CLI.determineTargets: derive the platform strings and map each one to a
BuildTarget; a platform whose first or second segment is missing or empty
throws `Invalid platform format`, which aborts the whole resolution. -/
def determineTargets (supported : List String) (host : HostInfo)
    (dateStamp : String) (o : TargetOptions) : Except String (List BuildTarget) :=
  (choosePlatforms supported host o).mapM (resolveOne o dateStamp)

/-- Modelled from the spec: the supported-platform set (`SUPPORTED_PLATFORMS`
imported by cli.ts from core/constants.ts, a file not present in the tree).
The set is taken from the repository's build script, which enumerates the
supported os/arch pairs. Only membership of concrete strings is used. -/
def SUPPORTED_PLATFORMS : List String :=
  ["linux/amd64", "linux/arm64", "linux/386", "linux/ppc64le", "linux/s390x",
   "linux/riscv64", "linux/mips64le", "linux/mips64",
   "darwin/amd64", "darwin/arm64",
   "windows/amd64", "windows/arm64", "windows/386",
   "freebsd/amd64", "freebsd/arm64", "freebsd/386",
   "netbsd/amd64", "netbsd/arm64",
   "openbsd/amd64", "openbsd/arm64",
   "dragonfly/amd64", "solaris/amd64", "aix/ppc64", "android/arm64",
   "illumos/amd64"]

/-- Whether an Except computation succeeded. -/
def isOkE {ε α : Type} (e : Except ε α) : Bool :=
  match e with
  | .ok _ => true
  | .error _ => false

/- ## GoBuilder.executeGoBuild: the environment object handed to execa

The source builds the object literal
`\x7b GOOS: target.os, GOARCH: target.arch, CGO_ENABLED: ..., ...process.env \x7d`.
JavaScript evaluates the explicit keys first and then the spread, and a later
assignment to an existing key overwrites its value.  The object is modelled as
an association list in insertion order with overwrite-on-existing-key. -/

/-- JavaScript object-key assignment: overwrite the value if the key exists,
otherwise append the new entry. -/
def setKey (m : List (String × String)) (k v : String) : List (String × String) :=
  if m.any (fun p => p.1 = k) then
    m.map (fun p => if p.1 = k then (k, v) else p)
  else m ++ [(k, v)]

/-- JavaScript property read on the modelled object. -/
def getKey (m : List (String × String)) (k : String) : Option String :=
  (m.find? (fun p => p.1 = k)).map (fun p => p.2)

/-- The env object executeGoBuild passes to execa: the three cross-compilation
keys assigned first, then every entry of process.env spread over them. -/
def execaEnv (target : BuildTarget) (config : BuildConfig)
    (parentEnv : List (String × String)) : List (String × String) :=
  let base :=
    setKey (setKey (setKey [] "GOOS" target.os) "GOARCH" target.arch)
      "CGO_ENABLED" (if config.cgo then "1" else "0")
  parentEnv.foldl (fun m p => setKey m p.1 p.2) base

/- ## Concrete instances used by the counterexamples and witnesses -/

/-- A concrete linux/amd64 target as determineTargets would produce it. -/
def target0 : BuildTarget :=
  { os := "linux", arch := "amd64",
    output := "dist/app-1.0.0-linux-amd64-20250101", platform := "linux/amd64" }

/-- A concrete darwin/arm64 target. -/
def targetDarwin : BuildTarget :=
  { os := "darwin", arch := "arm64",
    output := "dist/app-1.0.0-darwin-arm64-20250101", platform := "darwin/arm64" }

/-- The BuildConfig createBuildConfig produces for a default `mkgo build
--target linux/amd64` invocation (all defaults; timestamp and randomHash as
drawn on that run). -/
def cfgBase : BuildConfig :=
  { targets := [target0], ldflags := "", tags := [], cgo := false, race := false,
    compress := false, version := "1.0.0", buildVersion := "", checksum := true,
    clean := true, debug := false, verbose := false,
    timestamp := "20250101T000000", gitHash := "abc1234", randomHash := "aaaaaaaaaa",
    outputDir := "dist", binaryName := "app", static := false, strip := false,
    timeout := 300, parallel := 2, skipTests := false, skipVerification := false,
    noCache := false }

/-- The config of a second invocation with the identical user-supplied
configuration and identical source tree: only the invocation-generated
timestamp and randomHash differ. -/
def cfgSecond : BuildConfig :=
  { cfgBase with timestamp := "20250101T000001", randomHash := "bbbbbbbbbb" }

/-- cfgBase with the cache-bypass flag set and nothing else changed. -/
def cfgNoCacheOn : BuildConfig :=
  { cfgBase with noCache := true }

/-- cfgBase with clean disabled. -/
def cfgNoClean : BuildConfig :=
  { cfgBase with clean := false }

/-- A fixed stand-in for the md5 of the source bytes. -/
def md5Fixed : List Nat → String := fun _ => "sourcehash12"

/-- A concrete hash on byte streams that distinguishes the two enumeration
orders of the C2 counterexample (any collision-free hash does). -/
def md5Order : List Nat → String :=
  fun l => if l = [1, 2] then "ordhash12aaa" else "ordhash21bbb"

/-- Source file `./a.go` with byte content `[1]`. -/
def fileA : String × Option (List Nat) := ("./a.go", some [1])

/-- Source file `./b.go` with byte content `[2]`. -/
def fileB : String × Option (List Nat) := ("./b.go", some [2])

/-- A path find listed but that no longer exists at read time. -/
def fileGone : String × Option (List Nat) := ("./gone.go", none)

/-- A linux/x64 host. -/
def host0 : HostInfo := { platform := "linux", arch := "x64" }

/-- An options record with everything absent except the given explicit
target list. -/
def optsExplicit (ts : List String) : TargetOptions :=
  { all := false, target := some ts, osList := none,
    archList := none, version := none, output := none, name := none }

/-- A build environment: valid go project, cache dir present, one core, every
job hitting the cache. -/
def benv0 : BuildEnvironment :=
  { goProject := true, cacheDirExists := true, cpus := 1,
    jobEnv := fun _ => ⟨true, true, true⟩ }

/-- A job oracle under which exactly targetDarwin's job fails (cache miss and
toolchain failure) and every other target succeeds. -/
def envOneFails : BuildTarget → JobEnv :=
  fun t => if t = targetDarwin then ⟨false, false, false⟩ else ⟨true, true, true⟩

/-- cfgBase building the two targets of spec scenario 1. -/
def cfgTwoTargets : BuildConfig :=
  { cfgBase with targets := [target0, targetDarwin] }

/-- The BuildTarget resolveOne produces for `windows/arm64` under default
options and date stamp 20250101. -/
def targetWinResolved : BuildTarget :=
  { os := "windows", arch := "arm64",
    output := "dist/app-1.0.0-windows-arm64-20250101.exe",
    platform := "windows/arm64" }

/- ## Helper lemmas about the scheduler -/

/-- The job loop never touches checksumFiles. -/
theorem runTargets_checksumFiles (m1 : String → String) (m2 : List Nat → String)
    (e : Except Unit (List (String × Option (List Nat))))
    (env : BuildTarget → JobEnv) (cfg : BuildConfig)
    (ts : List BuildTarget) (st : BuilderState) :
    (runTargets m1 m2 e env cfg ts st).1.checksumFiles = st.checksumFiles := by
  induction ts generalizing st with
  | nil => rfl
  | cons t ts ih =>
    simp only [runTargets]
    rw [ih]
    cases h1 : (env t).cacheHit <;> cases h2 : (env t).buildOk <;>
      cases h3 : (env t).saveOk <;> simp [buildTargetWithCache, h1, h2, h3]

/-- After the job loop, builtBinaries has gained exactly the outputs of the
targets whose jobs succeeded, in list order. -/
theorem runTargets_builtBinaries (m1 : String → String) (m2 : List Nat → String)
    (e : Except Unit (List (String × Option (List Nat))))
    (env : BuildTarget → JobEnv) (cfg : BuildConfig)
    (ts : List BuildTarget) (st : BuilderState) :
    (runTargets m1 m2 e env cfg ts st).1.builtBinaries =
      st.builtBinaries ++ (ts.filter (jobSucceeds env)).map BuildTarget.output := by
  induction ts generalizing st with
  | nil => simp [runTargets]
  | cons t ts ih =>
    simp only [runTargets]
    rw [ih]
    have hcase : jobSucceeds env t = true ∨ jobSucceeds env t = false := by
      cases jobSucceeds env t <;> simp
    cases h1 : (env t).cacheHit <;> cases h2 : (env t).buildOk <;>
      cases h3 : (env t).saveOk <;>
      simp [buildTargetWithCache, jobSucceeds, h1, h2, h3, List.filter_cons]

/-- After the job loop, failedBuilds has gained exactly the platform labels of
the targets whose jobs failed, in list order. -/
theorem runTargets_failedBuilds (m1 : String → String) (m2 : List Nat → String)
    (e : Except Unit (List (String × Option (List Nat))))
    (env : BuildTarget → JobEnv) (cfg : BuildConfig)
    (ts : List BuildTarget) (st : BuilderState) :
    (runTargets m1 m2 e env cfg ts st).1.failedBuilds =
      st.failedBuilds ++
        (ts.filter (fun t => !jobSucceeds env t)).map BuildTarget.platform := by
  induction ts generalizing st with
  | nil => simp [runTargets]
  | cons t ts ih =>
    simp only [runTargets]
    rw [ih]
    cases h1 : (env t).cacheHit <;> cases h2 : (env t).buildOk <;>
      cases h3 : (env t).saveOk <;>
      simp [buildTargetWithCache, jobSucceeds, h1, h2, h3, List.filter_cons]

/-- Processing a concatenation of job lists sequentially composes the state
and concatenates the traces. -/
theorem runTargets_append (m1 : String → String) (m2 : List Nat → String)
    (e : Except Unit (List (String × Option (List Nat))))
    (env : BuildTarget → JobEnv) (cfg : BuildConfig)
    (l₁ l₂ : List BuildTarget) (st : BuilderState) :
    runTargets m1 m2 e env cfg (l₁ ++ l₂) st =
      ((runTargets m1 m2 e env cfg l₂ (runTargets m1 m2 e env cfg l₁ st).1).1,
       (runTargets m1 m2 e env cfg l₁ st).2 ++
         (runTargets m1 m2 e env cfg l₂ (runTargets m1 m2 e env cfg l₁ st).1).2) := by
  induction l₁ generalizing st with
  | nil => simp [runTargets]
  | cons t ts ih => simp [runTargets, ih]

/-- Running the batches in sequence is running all their targets in order. -/
theorem runBatches_eq_flatten (m1 : String → String) (m2 : List Nat → String)
    (e : Except Unit (List (String × Option (List Nat))))
    (env : BuildTarget → JobEnv) (cfg : BuildConfig)
    (bs : List (List BuildTarget)) (st : BuilderState) :
    runBatches m1 m2 e env cfg bs st =
      runTargets m1 m2 e env cfg bs.flatten st := by
  induction bs generalizing st with
  | nil => simp [runBatches, runTargets]
  | cons b bs ih => simp [runBatches, ih, runTargets_append]

/-- The per-target job loop never purges the store: its trace is lookups and
stores only. -/
theorem purge_not_mem_runTargets (m1 : String → String) (m2 : List Nat → String)
    (e : Except Unit (List (String × Option (List Nat))))
    (env : BuildTarget → JobEnv) (cfg : BuildConfig)
    (ts : List BuildTarget) (st : BuilderState) :
    CacheOp.purge ∉ (runTargets m1 m2 e env cfg ts st).2 := by
  induction ts generalizing st with
  | nil => simp [runTargets]
  | cons t ts ih =>
    cases h1 : (env t).cacheHit <;> cases h2 : (env t).buildOk <;>
      cases h3 : (env t).saveOk <;>
      simp [runTargets, buildTargetWithCache, h1, h2, h3, ih]

/- ## Helper lemmas about the batch split -/

/-- chunkAux of the empty list is empty for any fuel. -/
theorem chunkAux_nil (limit : Nat) (fuel : Nat) :
    chunkAux limit fuel [] = [] := by
  cases fuel <;> rfl

/-- With positive batch size and enough fuel, the batches concatenate back to
the input list. -/
theorem chunkAux_flatten (limit : Nat) (hl : 1 ≤ limit) :
    ∀ (fuel : Nat) (l : List BuildTarget), l.length ≤ fuel →
      (chunkAux limit fuel l).flatten = l := by
  intro fuel
  induction fuel with
  | zero =>
    intro l h
    have : l = [] := List.length_eq_zero.mp (Nat.le_zero.mp h)
    subst this
    rfl
  | succ n ih =>
    intro l h
    cases l with
    | nil => rfl
    | cons x xs =>
      have hxs : xs.length + 1 ≤ n + 1 := by simpa using h
      have hdrop : ((x :: xs).drop limit).length ≤ n := by
        simp only [List.length_drop, List.length_cons]
        omega
      simp only [chunkAux, List.flatten_cons, ih _ hdrop]
      exact List.take_append_drop limit (x :: xs)

/-- With positive batch size, every batch is nonempty and no longer than the
batch size. -/
theorem chunkAux_mem_bound (limit : Nat) (hl : 1 ≤ limit) :
    ∀ (fuel : Nat) (l : List BuildTarget), l.length ≤ fuel →
      ∀ b ∈ chunkAux limit fuel l, b.length ≤ limit ∧ b ≠ [] := by
  intro fuel
  induction fuel with
  | zero =>
    intro l h
    have : l = [] := List.length_eq_zero.mp (Nat.le_zero.mp h)
    subst this
    simp [chunkAux]
  | succ n ih =>
    intro l h b hb
    cases l with
    | nil => simp [chunkAux] at hb
    | cons x xs =>
      simp only [chunkAux, List.mem_cons] at hb
      rcases hb with hb | hb
      · subst hb
        constructor
        · simp [List.length_take]
        · have : ((x :: xs).take limit).length ≠ 0 := by
            simp only [List.length_take, List.length_cons]
            omega
          exact fun hnil => this (by simp [hnil])
      · have hxs : xs.length + 1 ≤ n + 1 := by simpa using h
        have hdrop : ((x :: xs).drop limit).length ≤ n := by
          simp only [List.length_drop, List.length_cons]
          omega
        exact ih _ hdrop b hb

/-- With positive batch size, every batch except the last has exactly the
batch size. -/
theorem chunkAux_dropLast (limit : Nat) (hl : 1 ≤ limit) :
    ∀ (fuel : Nat) (l : List BuildTarget), l.length ≤ fuel →
      ∀ b ∈ (chunkAux limit fuel l).dropLast, b.length = limit := by
  intro fuel
  induction fuel with
  | zero =>
    intro l h
    have : l = [] := List.length_eq_zero.mp (Nat.le_zero.mp h)
    subst this
    simp [chunkAux]
  | succ n ih =>
    intro l h b hb
    cases l with
    | nil => simp [chunkAux] at hb
    | cons x xs =>
      simp only [chunkAux] at hb
      cases hrest : chunkAux limit n ((x :: xs).drop limit) with
      | nil => simp [hrest] at hb
      | cons c cs =>
        rw [hrest, List.dropLast_cons₂] at hb
        have hxs : xs.length + 1 ≤ n + 1 := by simpa using h
        have hdrop : ((x :: xs).drop limit).length ≤ n := by
          simp only [List.length_drop, List.length_cons]
          omega
        rcases List.mem_cons.mp hb with hb | hb
        · subst hb
          have hne : (x :: xs).drop limit ≠ [] := by
            intro hdnil
            rw [hdnil, chunkAux_nil] at hrest
            exact List.noConfusion hrest
          have hlen : limit < (x :: xs).length := by
            by_contra hcon
            exact hne (List.drop_eq_nil_of_le (Nat.le_of_not_lt hcon))
          simp only [List.length_take]
          omega
        · rw [← hrest] at hb
          exact ih _ hdrop b hb

/- ## Helper lemmas about target resolution -/

/-- In explicit-target mode the platform strings are exactly the user's list. -/
theorem choosePlatforms_explicit (supported : List String) (host : HostInfo)
    (o : TargetOptions) (ts : List String)
    (hall : o.all = false) (ht : o.target = some ts) (hne : ts ≠ []) :
    choosePlatforms supported host o = ts := by
  have hpos : 0 < ts.length := List.length_pos.mpr hne
  simp [choosePlatforms, hall, ht, hpos]

/-- A successfully resolved platform string is stored verbatim in the
target's platform field. -/
theorem resolveOne_platform (o : TargetOptions) (d : String) (p : String)
    (t : BuildTarget) (h : resolveOne o d p = Except.ok t) :
    t.platform = p := by
  unfold resolveOne at h
  cases hp : parsePlatform p with
  | none => rw [hp] at h; exact Except.noConfusion h
  | some pair =>
    rw [hp] at h
    cases h
    rfl

/-- resolveOne succeeds exactly when the platform string parses; no check
against any supported-platform set takes place. -/
theorem resolveOne_isOk (o : TargetOptions) (d : String) (p : String) :
    isOkE (resolveOne o d p) = (parsePlatform p).isSome := by
  unfold resolveOne
  cases parsePlatform p <;> rfl

/-- Successful resolution maps the platform strings one-to-one, in order,
multiplicity preserved. -/
theorem mapM_resolve_platforms (o : TargetOptions) (d : String) :
    ∀ (ps : List String) (l : List BuildTarget),
      ps.mapM (resolveOne o d) = Except.ok l → l.map BuildTarget.platform = ps := by
  intro ps
  induction ps with
  | nil =>
    intro l h
    simp only [List.mapM_nil, pure, Except.pure] at h
    cases h
    rfl
  | cons p ps ih =>
    intro l h
    rw [List.mapM_cons] at h
    cases hre : resolveOne o d p with
    | error msg =>
      rw [hre] at h
      simp only [Bind.bind, Except.bind] at h
      exact Except.noConfusion h
    | ok t =>
      rw [hre] at h
      simp only [Bind.bind, Except.bind] at h
      cases hrest : ps.mapM (resolveOne o d) with
      | error msg =>
        rw [hrest] at h
        exact Except.noConfusion h
      | ok ts =>
        rw [hrest] at h
        simp only [pure, Except.pure] at h
        cases h
        simp only [List.map_cons, resolveOne_platform o d p t hre, ih ts hrest]

/-- Resolution of a platform list succeeds exactly when every string parses. -/
theorem mapM_resolve_isOk (o : TargetOptions) (d : String) :
    ∀ ps : List String,
      isOkE (ps.mapM (resolveOne o d)) =
        ps.all (fun p => (parsePlatform p).isSome) := by
  intro ps
  induction ps with
  | nil => rfl
  | cons p ps ih =>
    rw [List.all_cons, ← ih, ← resolveOne_isOk o d p, List.mapM_cons]
    cases hre : resolveOne o d p with
    | error msg =>
      simp only [Bind.bind, Except.bind, isOkE, Bool.false_and]
    | ok t =>
      simp only [Bind.bind, Except.bind]
      cases hrest : ps.mapM (resolveOne o d) with
      | error msg => simp only [isOkE, Bool.true_and]
      | ok ts => simp only [isOkE, pure, Except.pure, Bool.true_and]

/- ## Claim theorems -/

set_option maxRecDepth 400000 in
/-- Claim C1 (code bug): getCacheKey is claimed to give the same key for two
invocations on the identical source tree with the identical user-supplied
configuration.  The code hashes `JSON.stringify(config)`, which contains the
per-invocation timestamp and randomHash (and the full per-target `targets`
array), so a second invocation with the same user configuration and the same
source hash produces a different serialized config — hence, for the
(injective on these inputs, here instantiated collision-free as `id`) md5, a
different key, and every cross-invocation lookup misses.  This contradicts
the tool's own cache documentation ("cache is automatically invalidated when
source files change", 70-90% build-time savings for unchanged code). -/
theorem cacheKey_differs_across_invocations :
    stringifyConfig cfgBase ≠ stringifyConfig cfgSecond ∧
    getCacheKey id md5Fixed (.ok []) target0 cfgBase ≠
      getCacheKey id md5Fixed (.ok []) target0 cfgSecond := by
  exact ⟨by decide, by decide⟩

/-- Claim C2 (counterexample): the source hash is claimed to be computed over
a sorted enumeration, making it a function of the source-tree content alone.
calculateSourceHash folds the file contents in raw `find` order without
sorting: the same two files presented in the two orders (a permutation, i.e.
the same tree content) feed different byte streams to the hash and so yield
different hashes under any hash that separates the two streams (md5Order is
one such). -/
theorem sourceHash_order_dependent :
    [Mkgo.fileB, Mkgo.fileA].Perm [Mkgo.fileA, Mkgo.fileB] ∧
    concatContents [Mkgo.fileA, Mkgo.fileB] ≠ concatContents [Mkgo.fileB, Mkgo.fileA] ∧
    calculateSourceHash md5Order (.ok [Mkgo.fileA, Mkgo.fileB]) ≠
      calculateSourceHash md5Order (.ok [Mkgo.fileB, Mkgo.fileA]) :=
  ⟨List.Perm.swap Mkgo.fileA Mkgo.fileB [], by decide, by decide⟩

/-- Claim C2 (amended): the source hash is deterministic in the ordered
enumeration, not in the tree content: whenever two enumerations feed the same
byte stream to the hash (same existing files, same contents, same order —
missing files are skipped), the hash is the same.  Equality of the stream is
exactly what a fixed enumeration order on fixed content guarantees. -/
theorem sourceHash_deterministic_for_fixed_enumeration
    (md5bytes : List Nat → String)
    (e₁ e₂ : List (String × Option (List Nat)))
    (h : concatContents e₁ = concatContents e₂) :
    calculateSourceHash md5bytes (.ok e₁) = calculateSourceHash md5bytes (.ok e₂) := by
  simp only [calculateSourceHash, h]

/-- Witness for the amended C2 theorem: an enumeration with one vanished file
hashes like the enumeration without it. -/
theorem sourceHash_deterministic_witness :
    calculateSourceHash md5Order (.ok [Mkgo.fileA, fileGone, Mkgo.fileB]) =
      calculateSourceHash md5Order (.ok [Mkgo.fileA, Mkgo.fileB]) :=
  sourceHash_deterministic_for_fixed_enumeration md5Order
    [Mkgo.fileA, fileGone, Mkgo.fileB] [Mkgo.fileA, Mkgo.fileB] (by decide)

set_option maxRecDepth 400000 in
/-- Claim C3 (counterexample): the build path is claimed never to purge the
store, yet GoBuilder.build invokes BuildCache.cleanCache whenever
config.clean holds — and the CLI defaults `--clean` to true.  A default
config (clean = true) with an existing cache directory produces a purge in
the build's cache-operation trace. -/
theorem build_purges_cache_when_clean :
    cfgBase.clean = true ∧
    CacheOp.purge ∈ buildTrace id md5Fixed (.ok []) benv0 cfgBase 0 (fun _ => []) :=
  ⟨rfl, by decide⟩

/-- Claim C3 (amended): GoBuilder.build purges the entire cache store exactly
when the project validates, config.clean is set (the CLI default) and the
cache directory exists; with clean unset no operation of the build path —
in particular no per-target job — ever purges the store. -/
theorem build_purge_iff_clean (m1 : String → String) (m2 : List Nat → String)
    (e : Except Unit (List (String × Option (List Nat))))
    (benv : BuildEnvironment) (config : BuildConfig) (d : Nat)
    (w : List String → List String) :
    CacheOp.purge ∈ buildTrace m1 m2 e benv config d w ↔
      benv.goProject = true ∧ config.clean = true ∧ benv.cacheDirExists = true := by
  unfold buildTrace build
  cases hg : benv.goProject with
  | false => simp [hg]
  | true =>
    cases hcl : config.clean <;> cases hcd : benv.cacheDirExists <;>
      simp [hg, hcl, hcd, buildTargetsParallel, runBatches_eq_flatten,
        purge_not_mem_runTargets]

/-- Claim C4: in a run whose targets contain exactly one failing job (cache
miss and failed toolchain invocation or failed cache write), all other
targets' outputs are recorded in order, the failed list is exactly the one
platform label, and every job of every batch reaches a terminal state and is
recorded (the counts add up to the whole target list).  Batches run strictly
in sequence by construction of runBatches. -/
theorem one_failure_isolated (m1 : String → String) (m2 : List Nat → String)
    (e : Except Unit (List (String × Option (List Nat))))
    (env : BuildTarget → JobEnv) (cpus : Nat) (config : BuildConfig)
    (pre post : List BuildTarget) (bad : BuildTarget)
    (hT : config.targets = pre ++ bad :: post)
    (hp : 1 ≤ config.parallel) (hc : 1 ≤ cpus)
    (hbad : jobSucceeds env bad = false)
    (hgood : ∀ t ∈ pre ++ post, jobSucceeds env t = true) :
    (buildTargetsParallel m1 m2 e env cpus config ⟨[], [], []⟩).1.builtBinaries =
        (pre ++ post).map BuildTarget.output ∧
    (buildTargetsParallel m1 m2 e env cpus config ⟨[], [], []⟩).1.failedBuilds =
        [bad.platform] ∧
    (buildTargetsParallel m1 m2 e env cpus config ⟨[], [], []⟩).1.builtBinaries.length +
        (buildTargetsParallel m1 m2 e env cpus config ⟨[], [], []⟩).1.failedBuilds.length =
      config.targets.length := by
  have hl : 1 ≤ parallelLimit config cpus := Nat.le_min.mpr ⟨hp, hc⟩
  have hflat : (mkBatches config cpus).flatten = config.targets :=
    chunkAux_flatten _ hl _ _ le_rfl
  unfold buildTargetsParallel
  rw [runBatches_eq_flatten, hflat, hT]
  have hpre_s : pre.filter (jobSucceeds env) = pre :=
    List.filter_eq_self.mpr (fun t ht => hgood t (List.mem_append_left _ ht))
  have hpost_s : post.filter (jobSucceeds env) = post :=
    List.filter_eq_self.mpr (fun t ht => hgood t (List.mem_append_right _ ht))
  have hpre_f : pre.filter (fun t => !jobSucceeds env t) = [] := by
    rw [List.filter_eq_nil_iff]
    intro t ht
    simp [hgood t (List.mem_append_left _ ht)]
  have hpost_f : post.filter (fun t => !jobSucceeds env t) = [] := by
    rw [List.filter_eq_nil_iff]
    intro t ht
    simp [hgood t (List.mem_append_right _ ht)]
  refine ⟨?_, ?_, ?_⟩
  · rw [runTargets_builtBinaries]
    simp [List.filter_append, List.filter_cons, hbad, hpre_s, hpost_s]
  · rw [runTargets_failedBuilds]
    simp [List.filter_append, List.filter_cons, hbad, hpre_f, hpost_f]
  · rw [runTargets_builtBinaries, runTargets_failedBuilds]
    simp [List.filter_append, List.filter_cons, hbad, hpre_s, hpost_s, hpre_f,
      hpost_f]
    omega

/-- Witness for C4 at a concrete two-target batch in which exactly the darwin
job fails. -/
theorem one_failure_isolated_witness :
    (buildTargetsParallel id md5Fixed (.ok []) envOneFails 2 cfgTwoTargets
        ⟨[], [], []⟩).1.builtBinaries =
      ([target0] ++ ([] : List BuildTarget)).map BuildTarget.output ∧
    (buildTargetsParallel id md5Fixed (.ok []) envOneFails 2 cfgTwoTargets
        ⟨[], [], []⟩).1.failedBuilds = [targetDarwin.platform] ∧
    (buildTargetsParallel id md5Fixed (.ok []) envOneFails 2 cfgTwoTargets
        ⟨[], [], []⟩).1.builtBinaries.length +
      (buildTargetsParallel id md5Fixed (.ok []) envOneFails 2 cfgTwoTargets
        ⟨[], [], []⟩).1.failedBuilds.length = cfgTwoTargets.targets.length :=
  one_failure_isolated id md5Fixed (.ok []) envOneFails 2 cfgTwoTargets
    [target0] [] targetDarwin rfl (by decide) (by decide) (by decide) (by decide)

/-- Claim C5: in the aggregated BuildResult, success holds exactly when the
failed-platform list is empty (GoBuilder.createBuildResult sets
`success := failedBuilds.length === 0`). -/
theorem buildResult_success_iff_failed_empty (st : BuilderState) (d : Nat) :
    ((createBuildResult st d).success = true) ↔
      (createBuildResult st d).failed = [] := by
  simp [createBuildResult, List.length_eq_zero]

/-- Claim C6: with a positive parallelism setting and at least one core, the
target list is split into consecutive batches (their concatenation is the
target list, in order), every batch is nonempty and no larger than
`min(config.parallel, cpus)` — so, batches being run strictly in sequence,
never more than that many toolchain invocations are in flight — and every
batch except possibly the last has exactly that size. -/
theorem scheduler_batches_bound (config : BuildConfig) (cpus : Nat)
    (hp : 1 ≤ config.parallel) (hc : 1 ≤ cpus) :
    (mkBatches config cpus).flatten = config.targets ∧
    ((mkBatches config cpus).all
      (fun b => decide (b.length ≤ parallelLimit config cpus) && !b.isEmpty)) = true ∧
    ((mkBatches config cpus).dropLast.all
      (fun b => b.length == parallelLimit config cpus)) = true := by
  have hl : 1 ≤ parallelLimit config cpus := Nat.le_min.mpr ⟨hp, hc⟩
  refine ⟨chunkAux_flatten _ hl _ _ le_rfl, ?_, ?_⟩
  · rw [List.all_eq_true]
    intro b hb
    obtain ⟨h1, h2⟩ := chunkAux_mem_bound _ hl _ _ le_rfl b hb
    simp [h1, h2]
  · rw [List.all_eq_true]
    intro b hb
    have h := chunkAux_dropLast _ hl _ _ le_rfl b hb
    simp [h]

/-- Witness for C6: two targets, parallel = 2, one core: batches of size
min 2 1 = 1. -/
theorem scheduler_batches_bound_witness :
    (mkBatches cfgTwoTargets 1).flatten = cfgTwoTargets.targets ∧
    ((mkBatches cfgTwoTargets 1).all
      (fun b => decide (b.length ≤ parallelLimit cfgTwoTargets 1) && !b.isEmpty)) = true ∧
    ((mkBatches cfgTwoTargets 1).dropLast.all
      (fun b => b.length == parallelLimit cfgTwoTargets 1)) = true :=
  scheduler_batches_bound cfgTwoTargets 1 (by decide) (by decide)

set_option maxRecDepth 400000 in
/-- Claim C7 (counterexample): the resolved target list is claimed to be
deduplicated by platform label.  determineTargets performs no deduplication:
the explicit directive `--target linux/amd64 linux/amd64` resolves to two
targets with the same platform label. -/
theorem duplicate_targets_not_removed :
    (determineTargets SUPPORTED_PLATFORMS host0 "20250101"
        (optsExplicit ["linux/amd64", "linux/amd64"])).toOption.map
      (fun l => l.map BuildTarget.platform) =
        some ["linux/amd64", "linux/amd64"] ∧
    ¬ (["linux/amd64", "linux/amd64"] : List String).Nodup :=
  ⟨by decide, by decide⟩

/-- Claim C7 (amended): the resolved list maps the directive-derived platform
strings one-to-one in order, multiplicity preserved — so it is free of
duplicate labels only when the directives themselves repeat no platform. -/
theorem explicit_targets_resolved_in_order (supported : List String)
    (host : HostInfo) (dateStamp : String) (o : TargetOptions)
    (ts : List String) (l : List BuildTarget)
    (hall : o.all = false) (ht : o.target = some ts) (hne : ts ≠ [])
    (hok : determineTargets supported host dateStamp o = Except.ok l) :
    l.map BuildTarget.platform = ts := by
  unfold determineTargets at hok
  rw [choosePlatforms_explicit supported host o ts hall ht hne] at hok
  exact mapM_resolve_platforms o dateStamp ts l hok

set_option maxRecDepth 400000 in
/-- Witness for the amended C7 theorem at a concrete windows/arm64 directive. -/
theorem explicit_targets_resolved_in_order_witness :
    [targetWinResolved].map BuildTarget.platform = ["windows/arm64"] :=
  explicit_targets_resolved_in_order SUPPORTED_PLATFORMS host0 "20250101"
    (optsExplicit ["windows/arm64"]) ["windows/arm64"] [targetWinResolved]
    rfl rfl (by decide) (by rfl)

set_option maxRecDepth 400000 in
/-- Claim C8 (counterexample): resolution is claimed to fail whenever a
platform string is not exactly one supported os/arch pair.  determineTargets
never consults the supported-platform set and silently drops extra segments:
both `foo/bar` (unsupported pair) and `linux/amd64/extra` (not exactly one
pair) resolve without error. -/
theorem unsupported_platform_accepted :
    isOkE (determineTargets SUPPORTED_PLATFORMS host0 "20250101"
        (optsExplicit ["foo/bar", "linux/amd64/extra"])) = true ∧
    "foo/bar" ∉ SUPPORTED_PLATFORMS ∧
    "linux/amd64/extra" ∉ SUPPORTED_PLATFORMS :=
  ⟨by decide, by decide, by decide⟩

/-- Claim C8 (amended): for an explicit target directive, resolution fails
(with the invalid-platform error) exactly when some platform string's first
or second slash-separated segment is missing or empty; membership in the
supported-platform set is never checked, and segments beyond the second are
ignored. -/
theorem resolution_fails_iff_malformed (supported : List String)
    (host : HostInfo) (dateStamp : String) (o : TargetOptions) (ts : List String)
    (hall : o.all = false) (ht : o.target = some ts) (hne : ts ≠ []) :
    isOkE (determineTargets supported host dateStamp o) =
      ts.all (fun p => (parsePlatform p).isSome) := by
  unfold determineTargets
  rw [choosePlatforms_explicit supported host o ts hall ht hne]
  exact mapM_resolve_isOk o dateStamp ts

set_option maxRecDepth 400000 in
/-- Witness for the amended C8 theorem: `linux/` (empty second segment) makes
resolution fail. -/
theorem resolution_fails_iff_malformed_witness :
    isOkE (determineTargets SUPPORTED_PLATFORMS host0 "20250101"
        (optsExplicit ["linux/"])) =
      (["linux/"] : List String).all (fun p => (parsePlatform p).isSome) :=
  resolution_fails_iff_malformed SUPPORTED_PLATFORMS host0 "20250101"
    (optsExplicit ["linux/"]) ["linux/"] rfl rfl (by decide)

/-- Claim C9 (code bug): executeGoBuild is claimed to run the toolchain with
GOOS/GOARCH/CGO_ENABLED set to the target's values.  The env object spreads
`process.env` after the explicit keys, so a parent environment that defines
them overrides the target's values: building darwin/arm64 with cgo disabled
under a parent env `GOOS=linux, CGO_ENABLED=1` hands the toolchain GOOS=linux
and CGO_ENABLED=1. -/
theorem parent_env_overrides_target_env :
    getKey (execaEnv targetDarwin cfgBase [("GOOS", "linux"), ("CGO_ENABLED", "1")])
        "GOOS" = some "linux" ∧
    targetDarwin.os = "darwin" ∧
    getKey (execaEnv targetDarwin cfgBase [("GOOS", "linux"), ("CGO_ENABLED", "1")])
        "CGO_ENABLED" = some "1" ∧
    cfgBase.cgo = false :=
  ⟨by decide, rfl, by decide, rfl⟩

set_option maxRecDepth 400000 in
/-- Claim C10 (counterexample): the noCache flag is claimed never to be read
by the builder or the cache.  BuildCache.getCacheKey hashes the full
JSON-serialized config, noCache included: flipping only noCache changes the
serialized config and hence (for any hash separating the two strings,
instantiated collision-free as `id`) the cache key of every target. -/
theorem cache_key_depends_on_noCache :
    stringifyConfig cfgBase ≠ stringifyConfig cfgNoCacheOn ∧
    getCacheKey id md5Fixed (.ok []) target0 cfgBase ≠
      getCacheKey id md5Fixed (.ok []) target0 cfgNoCacheOn :=
  ⟨by decide, by decide⟩

/-- Claim C10 (amended): the builder's control flow never branches on
noCache: with noCache set, every job still performs the cache lookup first,
still stores the binary after a miss followed by a successful build, and the
recorded outcome is identical to the same run with noCache unset; but the
cache does read noCache through the config serialization, so the looked-up
key itself depends on it. -/
theorem noCache_build_path_behavior (m1 : String → String)
    (m2 : List Nat → String)
    (e : Except Unit (List (String × Option (List Nat))))
    (env : BuildTarget → JobEnv) (config : BuildConfig) (st : BuilderState)
    (t : BuildTarget) (hnc : config.noCache = true) :
    (buildTargetWithCache m1 m2 e env config st t).2.head? =
      some (CacheOp.lookup (getCacheKey m1 m2 e t config)) ∧
    ((env t).cacheHit = false → (env t).buildOk = true →
      CacheOp.store (getCacheKey m1 m2 e t config) ∈
        (buildTargetWithCache m1 m2 e env config st t).2) ∧
    (buildTargetWithCache m1 m2 e env { config with noCache := false } st t).1 =
      (buildTargetWithCache m1 m2 e env config st t).1 := by
  cases h1 : (env t).cacheHit <;> cases h2 : (env t).buildOk <;>
    cases h3 : (env t).saveOk <;>
    simp [buildTargetWithCache, h1, h2, h3]

set_option maxRecDepth 400000 in
/-- Witness for the amended C10 theorem: with noCache set, a cache miss
followed by a successful build still stores into the cache. -/
theorem noCache_build_path_behavior_witness :
    CacheOp.store (getCacheKey id md5Fixed (.ok []) target0 cfgNoCacheOn) ∈
      (buildTargetWithCache id md5Fixed (.ok [])
        (fun _ => ⟨false, true, true⟩) cfgNoCacheOn ⟨[], [], []⟩ target0).2 :=
  (noCache_build_path_behavior id md5Fixed (.ok [])
    (fun _ => ⟨false, true, true⟩) cfgNoCacheOn ⟨[], [], []⟩ target0 rfl).2.1
    rfl rfl

end Mkgo
